import Mathlib

/-!
Verification of the TabInfoCopy format/transform engine.

The definitions below are a shallow embedding of the format registry
(builtin and custom format specs) and of the render pipeline.  TypeScript
optional strings (`string | undefined`) are embedded as `Option String`;
JavaScript truthiness of a string (`s` is falsy when missing or empty) is
made explicit through `truthy` and `orElseStr`.
-/

namespace TC

/-- Truthiness of an optional string: false for `undefined` and for `""`,
mirroring JavaScript. -/
def truthy : Option String → Bool
  | none => false
  | some s => s != ""

/-- Models the JavaScript expression `a || b` on an optional string `a`
with fallback `b`: yields `a` when `a` is present and non-empty. -/
def orElseStr (a : Option String) (b : String) : String :=
  match a with
  | some s => if s = "" then b else s
  | none => b

/-- Models the TypeScript non-null assertion `x!` on an optional string.
The app guarantees the value is present wherever the source uses `!`. -/
def bangStr (o : Option String) : String := o.getD ""

/-- Models JavaScript template-literal interpolation of a possibly
`undefined` value, which prints the string `undefined`. -/
def tsStr : Option String → String
  | some s => s
  | none => "undefined"

/-- Truthiness of an optional number, mirroring JavaScript (`0` is falsy). -/
def natTruthy : Option Nat → Bool
  | none => false
  | some n => n != 0

/-- Truthiness of an optional boolean, mirroring JavaScript. -/
def boolTruthy : Option Bool → Bool
  | none => false
  | some b => b

/-- A run of `n` spaces, as a character list. -/
def spacesL : Nat → List Char
  | 0 => []
  | n + 1 => ' ' :: spacesL n

/-- A run of `n` spaces. -/
def spaces (n : Nat) : String := ⟨spacesL n⟩

/-- Joins a list of strings with a separator between successive elements. -/
def joinStr (sep : String) : List String → String
  | [] => ""
  | [x] => x
  | x :: y :: ys => x ++ sep ++ joinStr sep (y :: ys)

/-- Modelled from the spec: `sentenceCase` from `@/util/string` is not in
the provided sources; modelled as upper-casing the first character. -/
def sentenceCase (s : String) : String :=
  match s.data with
  | [] => ""
  | c :: cs => ⟨c.toUpper :: cs⟩

/-- Modelled from the spec: localized label `intl.window()`.  The spec's
expected outputs use the English value (`"Window 1"` after sentence-casing). -/
def intlWindow : String := "window"

/-- Modelled from the spec: localized label `intl.title()`. -/
def intlTitle : String := "title"

/-- Modelled from the spec: localized label `intl.url()`. -/
def intlUrl : String := "URL"

/-- Modelled from the spec: localized label `intl.link()`. -/
def intlLink : String := "link"

/-- Modelled from the spec: localized label `intl.htmlTable()`. -/
def intlHtmlTable : String := "HTML table"

/-- Modelled from the spec: localized conjunction `intl.conjoin(a, b)`. -/
def intlConjoin (a b : String) : String := a ++ " and " ++ b

/-- A browser tab as consumed by the format engine: `chrome.tabs.Tab`
restricted to the fields the formats read. -/
structure Tab where
  id : Option Nat := none
  title : Option String := none
  url : Option String := none
  favIconUrl : Option String := none
deriving DecidableEq

/-- `MIN_VISIBLE_FORMAT_COUNT` from the source. -/
def MIN_VISIBLE_FORMAT_COUNT : Nat := 3

/-- `DEFAULT_TITLE_URL_1_LINE_SEPARATOR` from the source. -/
def DEFAULT_TITLE_URL_1_LINE_SEPARATOR : String := ": "

/-- `DEFAULT_CUSTOM_FORMAT_NAME` from the source. -/
def DEFAULT_CUSTOM_FORMAT_NAME : String := "Custom format"

/-- `DEFAULT_INDENT_SIZE` from the source. -/
def DEFAULT_INDENT_SIZE : Nat := 3

/-- Models `String.prototype.replace` with a global single-character
pattern: every occurrence of character `c` is replaced by the character
sequence `r`. -/
def replaceAllChar (c : Char) (r : List Char) (s : String) : String :=
  ⟨s.data.flatMap fun x => if x = c then r else [x]⟩

/-- The markdown label escaping from the source: `.replace(/\[/g, '\\[')`
followed by `.replace(/\]/g, '\\]')`. -/
def mdEscapeLabel (s : String) : String :=
  replaceAllChar ']' ['\\', ']'] (replaceAllChar '[' ['\\', '['] s)

/-- The markdown url escaping from the source: `.replace(/\(/g, '\\(')`
followed by `.replace(/\)/g, '\\)')`. -/
def mdEscapeUrl (s : String) : String :=
  replaceAllChar ')' ['\\', ')'] (replaceAllChar '(' ['\\', '('] s)

/-- Character-wise escaping of `[` and `]` only, written directly from the
spec sentence: the corresponding characters are escaped and no others. -/
def mdEscapeLabelCharSpec (c : Char) : List Char :=
  if c = '[' then ['\\', '[']
  else if c = ']' then ['\\', ']']
  else [c]

/-- Character-wise escaping of `(` and `)` only, written directly from the
spec sentence: the corresponding characters are escaped and no others. -/
def mdEscapeUrlCharSpec (c : Char) : List Char :=
  if c = '(' then ['\\', '(']
  else if c = ')' then ['\\', ')']
  else [c]

/-- Modelled from the spec: `encodeHtml` from `@/util/string` is not in the
provided sources; modelled as standard HTML entity encoding of the
characters with meaning in HTML text. -/
def encodeHtmlChar (c : Char) : List Char :=
  if c = '&' then "&amp;".data
  else if c = '<' then "&lt;".data
  else if c = '>' then "&gt;".data
  else if c = '"' then "&quot;".data
  else if c = '\'' then "&#39;".data
  else [c]

/-- Modelled from the spec: HTML-encodes a string (see `encodeHtmlChar`). -/
def encodeHtml (s : String) : String := ⟨s.data.flatMap encodeHtmlChar⟩

/-- `getAnchorTagHtml` from the source: an anchor tag for a tab, or the
empty string when the tab has no (truthy) url. -/
def getAnchorTagHtml (tab : Tab) : String :=
  if truthy tab.url then
    "<a href=\"" ++ bangStr tab.url ++ "\">" ++
      encodeHtml (orElseStr tab.title (bangStr tab.url)) ++ "</a>"
  else ""

/-- `getTitleUrlText` from the source: `title || '(untitled)'`, then the
separator (defaulting to `': '` when the argument is `undefined`), then the
url. -/
def getTitleUrlText (url : String) (title : Option String)
    (separator : Option String) : String :=
  orElseStr title "(untitled)" ++ separator.getD DEFAULT_TITLE_URL_1_LINE_SEPARATOR ++ url

/-- `getNumberedWindowText` from the source. -/
def getNumberedWindowText (seq : Nat) : String :=
  sentenceCase intlWindow ++ " " ++ toString seq

/-- Modelled from the spec: RFC-4180-style quoting of one CSV field
(`stringifyCSVRow` from `@/util/csv` is not in the provided sources).  A
field is quoted when it contains a comma, a double quote or a newline;
embedded double quotes are doubled. -/
def csvQuoteField (s : String) : String :=
  if s.data.any (fun c => c = ',' || c = '"' || c = '\n') then
    "\"" ++ (⟨s.data.flatMap fun c => if c = '"' then ['"', '"'] else [c]⟩ : String) ++ "\""
  else s

/-- Modelled from the spec: `stringifyCSVRow` joins the quoted fields of a
row with commas.  A `none` cell (JavaScript `null`) becomes an empty field. -/
def stringifyCSVRow (cells : List (Option String)) : String :=
  joinStr "," (cells.map fun c => csvQuoteField (c.getD ""))

/-- Models `parseInt(s, 10)` restricted to the inputs the options UI
produces: a run of leading decimal digits, `none` (JavaScript `NaN`) when
the string does not start with a digit. -/
def parseIntDigits (s : String) : Option Nat :=
  let digits := s.data.takeWhile Char.isDigit
  if digits.isEmpty then none
  else some (digits.foldl (fun acc c => acc * 10 + (c.toNat - '0'.toNat)) 0)

/-- Modelled from the spec: `indent` from `@/util/string` is not in the
provided sources; modelled as prefixing every line of `s` with `n` spaces. -/
def indent (s : String) (n : Nat) : String :=
  ⟨spacesL n ++ s.data.flatMap fun c => if c = '\n' then '\n' :: spacesL n else [c]⟩

/-- JSON string-body escaping (backslash, double quote and newline), used
to model `JSON.stringify` on string values. -/
def jsonEscape (s : String) : String :=
  ⟨s.data.flatMap fun c =>
    if c = '\\' then ['\\', '\\']
    else if c = '"' then ['\\', '"']
    else if c = '\n' then ['\\', 'n']
    else [c]⟩

/-- A JSON string literal, used to model `JSON.stringify` on string values. -/
def jsonStr (s : String) : String := "\"" ++ jsonEscape s ++ "\""

/-- Models `JSON.stringify(obj, undefined, indentSize)` for a flat object
with string-valued properties given as an ordered key/value list. -/
def jsonStringifyObj (pairs : List (String × String)) (indentSize : Nat) : String :=
  match pairs with
  | [] => "\x7b\x7d"
  | _ =>
    if indentSize = 0 then
      "\x7b" ++ joinStr "," (pairs.map fun p => jsonStr p.1 ++ ":" ++ jsonStr p.2) ++ "\x7d"
    else
      "\x7b\n" ++
        joinStr ",\n" (pairs.map fun p => spaces indentSize ++ jsonStr p.1 ++ ": " ++ jsonStr p.2) ++
        "\n\x7d"

/-- Models the json format's `windowStart` string: `JSON.stringify` of
`\x7b title, tabs: [] \x7d` with the trailing `[]\x7d` replaced by `[` (the
`.replace(/\[\][\s\n]*\}$/, '[')` of the source), for the given indent. -/
def jsonWindowStart (indentSize : Nat) (winText : String) : String :=
  if indentSize = 0 then
    "\x7b\"title\":" ++ jsonStr winText ++ ",\"tabs\":["
  else
    "\x7b\n" ++ spaces indentSize ++ "\"title\": " ++ jsonStr winText ++ ",\n" ++
      spaces indentSize ++ "\"tabs\": ["

-- The scope of one copy action (spec §3): a single tab, one window, or
-- multiple windows.
inductive ScopeType where
  | tab
  | window
  | windows
deriving DecidableEq

-- The `scopeType` value passed to `start` callbacks (source context type:
-- `'window' | 'tab'`).
inductive CtxScopeType where
  | window
  | tab
deriving DecidableEq

/-- The `scopeType` context field for a scope: `'tab'` for tab-only
scopes, `'window'` otherwise. -/
def ctxScopeOf : ScopeType → CtxScopeType
  | .tab => .tab
  | _ => .window

/-- Context of a `start`/`end` callback (source `TextTransform`).
`windowCount` is missing for tab-only scopes. -/
structure StartCtx where
  formatName : String
  windowCount : Option Nat
  tabCount : Nat
  scopeType : CtxScopeType

/-- Context of a `windowStart`/`windowEnd` callback (source `TextTransform`). -/
structure WindowCtx where
  window : List Tab
  seq : Nat
  windowTabCount : Nat

/-- Context of a `tab` callback (source `TextTransform`).  `windowTabSeq`
and `windowSeq` are missing for tab-only scopes. -/
structure TabCtx where
  tab : Tab
  globalSeq : Nat
  windowTabSeq : Option Nat
  windowSeq : Option Nat

/-- Context of an `end` callback (source `TextTransform`). -/
structure EndCtx where
  formatName : String
  windowCount : Option Nat
  tabCount : Nat

/-- One representation's transform callbacks (source `TextTransform`): all
optional; a missing callback emits nothing. -/
structure TextTransform where
  start : Option (StartCtx → String) := none
  windowStart : Option (WindowCtx → String) := none
  tab : Option (TabCtx → String) := none
  tabDelimiter : Option String := none
  windowEnd : Option (WindowCtx → String) := none
  windowDelimiter : Option String := none
  endCb : Option (EndCtx → String) := none

/-- The representations of a format (source `Transforms`; the optional
`nxs` representation is unused by every format shown and omitted). -/
structure Transforms where
  text : TextTransform
  html : Option TextTransform := none

/-- The option bag passed into a builtin format's `label`/`transforms`.
TypeScript's structural option objects are embedded as one record of all
option fields used by builtin formats, each optional. -/
structure OptBag where
  separator : Option String := none
  properties : Option (List String) := none
  pretty : Option Bool := none
  indent : Option String := none
  includeHeader : Option Bool := none

/-- A builtin registry entry (source `Format`): id, label function,
transforms factory, and optional declared default opts. -/
structure Format where
  id : String
  label : Option OptBag → String
  transforms : Option OptBag → Transforms
  opts : Option OptBag := none

/-- The custom format's template (source `customFormat.opts.template`). -/
structure CustomTemplate where
  header : String
  tab : String
  delimiter : String
  footer : String

/-- The custom format's opts (source `customFormat.opts`). -/
structure CustomOpts where
  name : String
  template : CustomTemplate

/-- The custom format entry (source `customFormat`, an entry without an id). -/
structure CustomFormat where
  label : Option CustomOpts → String
  transforms : Option CustomOpts → Transforms
  opts : CustomOpts

/-- `urlTextTransform` from the source. -/
def urlTextTransform : TextTransform where
  windowStart := some fun ctx => getNumberedWindowText ctx.seq ++ "\n\n"
  tab := some fun ctx => bangStr ctx.tab.url
  tabDelimiter := some "\n"
  windowDelimiter := some "\n\n"

/-- The `link` builtin format from the source. -/
def linkFormat : Format where
  id := "link"
  label := fun _ => sentenceCase intlLink
  transforms := fun _ =>
    { text := urlTextTransform
      html := some
        { windowStart := some fun ctx => getNumberedWindowText ctx.seq ++ "<br>\n<br>\n"
          tab := some fun ctx => getAnchorTagHtml ctx.tab
          tabDelimiter := some "<br>\n"
          windowDelimiter := some "<br>\n<br>\n" } }

/-- The `url` builtin format from the source. -/
def urlFormat : Format where
  id := "url"
  label := fun _ => intlUrl
  transforms := fun _ => { text := urlTextTransform }

/-- The `titleUrl1Line` builtin format from the source. -/
def titleUrl1LineFormat : Format where
  id := "titleUrl1Line"
  label := fun opts => sentenceCase (getTitleUrlText intlUrl (some intlTitle) (opts.bind (·.separator)))
  transforms := fun opts =>
    { text :=
        { windowStart := some fun ctx => getNumberedWindowText ctx.seq ++ "\n\n"
          tab := some fun ctx => getTitleUrlText (bangStr ctx.tab.url) ctx.tab.title (opts.bind (·.separator))
          tabDelimiter := some "\n"
          windowDelimiter := some "\n\n" } }
  opts := some { separator := some DEFAULT_TITLE_URL_1_LINE_SEPARATOR }

/-- The `titleUrl2Line` builtin format from the source: the separator is
the hardcoded `'\n'`, and the factory ignores its opts argument. -/
def titleUrl2LineFormat : Format where
  id := "titleUrl2Line"
  label := fun _ => sentenceCase (intlConjoin intlTitle intlUrl)
  transforms := fun _ =>
    { text :=
        { windowStart := some fun ctx => getNumberedWindowText ctx.seq ++ "\n\n"
          tab := some fun ctx => getTitleUrlText (bangStr ctx.tab.url) ctx.tab.title (some "\n")
          tabDelimiter := some "\n\n"
          windowDelimiter := some "\n\n" } }

/-- The `title` builtin format from the source. -/
def titleFormat : Format where
  id := "title"
  label := fun _ => sentenceCase intlTitle
  transforms := fun _ =>
    { text :=
        { windowStart := some fun ctx => getNumberedWindowText ctx.seq ++ "\n\n"
          tab := some fun ctx => orElseStr ctx.tab.title (bangStr ctx.tab.url)
          tabDelimiter := some "\n"
          windowDelimiter := some "\n\n" } }

/-- The `markdown` builtin format from the source. -/
def markdownFormat : Format where
  id := "markdown"
  label := fun _ => "Markdown"
  transforms := fun _ =>
    { text :=
        { windowStart := some fun ctx => "## " ++ getNumberedWindowText ctx.seq ++ "\n\n"
          tab := some fun ctx =>
            "[" ++ mdEscapeLabel (orElseStr ctx.tab.title (bangStr ctx.tab.url)) ++ "](" ++
              mdEscapeUrl (bangStr ctx.tab.url) ++ ")"
          tabDelimiter := some "\n\n"
          windowDelimiter := some "\n\n" } }

/-- The `bbcode` builtin format from the source. -/
def bbcodeFormat : Format where
  id := "bbcode"
  label := fun _ => "BBCode"
  transforms := fun _ =>
    { text :=
        { windowStart := some fun ctx => getNumberedWindowText ctx.seq ++ "\n\n"
          tab := some fun ctx =>
            if truthy ctx.tab.title then
              "[url=" ++ tsStr ctx.tab.url ++ "]" ++ tsStr ctx.tab.title ++ "[/url]"
            else "[url]" ++ tsStr ctx.tab.url ++ "[/url]"
          tabDelimiter := some "\n"
          windowDelimiter := some "\n\n" } }

/-- The `csv` builtin format from the source.  The `tab` callback keeps a
cell for the window column only when `windowSeq` is truthy (no `windowSeq`
means the scope type is `tab`; an `undefined` url cell is filtered out),
and `title || null` keeps a `null` cell for a falsy title. -/
def csvFormat : Format where
  id := "csv"
  label := fun _ => "CSV"
  transforms := fun _ =>
    { text :=
        { start := some fun ctx =>
            if ctx.tabCount != 0 then
              (if ctx.scopeType = .window then "Window," else "") ++ "Title,URL\n"
            else ""
          tab := some fun ctx =>
            stringifyCSVRow
              ((if natTruthy ctx.windowSeq then
                  [some (getNumberedWindowText (ctx.windowSeq.getD 0))]
                else []) ++
                [if truthy ctx.tab.title then ctx.tab.title else none] ++
                (match ctx.tab.url with
                 | some u => [some u]
                 | none => []))
          tabDelimiter := some "\n"
          windowDelimiter := some "\n" } }

/-- Whether the json format sees no `properties` filter: models
`!opts?.properties?.length`. -/
def jsonNoProperties (opts : Option OptBag) : Bool :=
  match opts.bind (·.properties) with
  | none => true
  | some l => l.isEmpty

/-- The effective indent width of the json format: 0 when not pretty,
otherwise `parseInt(opts?.indent, 10)` falling back to
`DEFAULT_INDENT_SIZE` on `NaN`. -/
def jsonIndentSize (opts : Option OptBag) : Nat :=
  if boolTruthy (opts.bind (·.pretty)) then
    match (opts.bind (·.indent)).bind parseIntDigits with
    | some n => n
    | none => DEFAULT_INDENT_SIZE
  else 0

/-- The ordered key/value list of the object built by the json format's
`tab` callback: each of `title`/`url`/`favIconUrl` is kept when it is
truthy on the tab and either no `properties` filter is configured or the
filter contains the property name. -/
def jsonTabProps (opts : Option OptBag) (tab : Tab) : List (String × String) :=
  let np := jsonNoProperties opts
  let props := (opts.bind (·.properties)).getD []
  (if truthy tab.title && (np || props.contains "title") then
    [("title", bangStr tab.title)] else []) ++
  (if truthy tab.url && (np || props.contains "url") then
    [("url", bangStr tab.url)] else []) ++
  (if truthy tab.favIconUrl && (np || props.contains "favIconUrl") then
    [("favIconUrl", bangStr tab.favIconUrl)] else [])

/-- The `json` builtin format from the source. -/
def jsonFormat : Format where
  id := "json"
  label := fun _ => "JSON"
  transforms := fun opts =>
    let newline := if boolTruthy (opts.bind (·.pretty)) then "\n" else ""
    let indentSize := jsonIndentSize opts
    { text :=
        { start := some fun _ => "["
          windowStart := some fun ctx =>
            newline ++ indent (jsonWindowStart indentSize (getNumberedWindowText ctx.seq)) indentSize
          tab := some fun ctx =>
            newline ++ indent (jsonStringifyObj (jsonTabProps opts ctx.tab) indentSize)
              (if natTruthy ctx.windowSeq then indentSize * 3 else indentSize)
          tabDelimiter := some ","
          windowEnd := some fun _ =>
            newline ++ indent "]" (indentSize * 2) ++ newline ++ indent "\x7d" indentSize
          windowDelimiter := some ","
          endCb := some fun _ => newline ++ "]" } }
  opts := some
    { properties := some ["title", "url"]
      pretty := some true
      indent := some "3" }

/-- The `html` builtin format from the source. -/
def htmlFormat : Format where
  id := "html"
  label := fun _ => "HTML"
  transforms := fun _ =>
    { text :=
        { windowStart := some fun ctx => intlWindow ++ " " ++ toString ctx.seq
          tab := some fun ctx => orElseStr ctx.tab.title (orElseStr ctx.tab.url "")
          tabDelimiter := some "" } }

/-- The `htmlTable` builtin format from the source. -/
def htmlTableFormat : Format where
  id := "htmlTable"
  label := fun _ => sentenceCase intlHtmlTable
  transforms := fun _ =>
    { text :=
        { tab := some fun ctx => getAnchorTagHtml ctx.tab
          tabDelimiter := some "<br>\n" }
      html := some
        { tab := some fun ctx => getAnchorTagHtml ctx.tab
          tabDelimiter := some "<br>\n" } }
  opts := some { includeHeader := some false }

/-- `builtinFormats` from the source, in source order. -/
def builtinFormats : List Format :=
  [linkFormat, urlFormat, titleUrl1LineFormat, titleUrl2LineFormat, titleFormat,
   markdownFormat, bbcodeFormat, csvFormat, jsonFormat, htmlFormat, htmlTableFormat]

/-- `customFormat` from the source. -/
def customFormat : CustomFormat where
  label := fun opts => (opts.map (·.name)).getD DEFAULT_CUSTOM_FORMAT_NAME
  transforms := fun _ =>
    { text := { tab := some fun ctx => tsStr ctx.tab.title ++ "\n" ++ tsStr ctx.tab.url } }
  opts :=
    { name := DEFAULT_CUSTOM_FORMAT_NAME
      template :=
        { header := "[date][n][n]"
          tab := "[#]) Title: [title][n]   URL:   [url]"
          delimiter := "[n][n]"
          footer := "" } }

/-- `builtinFormatIds` from the source. -/
def builtinFormatIds : List String := builtinFormats.map (·.id)

/-- `isCustomFormatId` from the source: `id.startsWith('custom-')`. -/
def isCustomFormatId (id : String) : Bool :=
  "custom-".data.isPrefixOf id.data

/-- `builtinFormatWithOptsIds` from the source: ids of builtin formats
that declare an `opts` field. -/
def builtinFormatWithOptsIds : List String :=
  (builtinFormats.filter (fun f => f.opts.isSome)).map (·.id)

/-- `isBuiltinFormatWithOptsId` from the source. -/
def isBuiltinFormatWithOptsId (id : String) : Bool :=
  builtinFormatWithOptsIds.contains id

/-- `isFormatWithOptsId` from the source. -/
def isFormatWithOptsId (id : String) : Bool :=
  isBuiltinFormatWithOptsId id || isCustomFormatId id

/-- `getFormat` from the source: the custom format template for ids
matching the custom pattern, otherwise a lookup in `builtinFormats`.  The
runtime `undefined` produced by a failed `.find` (the cast in the source
hides it) is embedded as `none`. -/
def getFormat (id : String) : Option (Format ⊕ CustomFormat) :=
  if isCustomFormatId id then some (Sum.inr customFormat)
  else (builtinFormats.find? (fun f => f.id == id)).map Sum.inl

-- ---------------------------------------------------------------------------
-- Render pipeline (spec §4.3).  The pipeline itself is not among the
-- provided sources, only the transform tables it executes; it is modelled
-- from the spec.  Output is built as a list of fragments so that
-- delimiter insertions are observable; the rendered string is their
-- concatenation.

/-- One fragment of rendered output: callback text, an inserted tab
delimiter, or an inserted window delimiter. -/
inductive Frag where
  | text (s : String)
  | tabDelim (s : String)
  | winDelim (s : String)
deriving DecidableEq

/-- The string carried by a fragment. -/
def fragStr : Frag → String
  | .text s => s
  | .tabDelim s => s
  | .winDelim s => s

/-- Whether a fragment is an inserted tab delimiter. -/
def isTabDelimF : Frag → Bool
  | .tabDelim _ => true
  | _ => false

/-- Whether a fragment is an inserted window delimiter. -/
def isWinDelimF : Frag → Bool
  | .winDelim _ => true
  | _ => false

/-- Whether a fragment is an inserted delimiter of either kind. -/
def isDelimF (f : Frag) : Bool := isTabDelimF f || isWinDelimF f

/-- Inserts the separator fragment strictly between successive elements. -/
def joinSep (d : Frag) : List Frag → List Frag
  | [] => []
  | [x] => [x]
  | x :: y :: ys => x :: d :: joinSep d (y :: ys)

/-- Joins blocks of fragments with the separator fragment strictly
between successive blocks. -/
def joinBlocks (d : Frag) : List (List Frag) → List Frag
  | [] => []
  | [b] => b
  | b :: b' :: bs => b ++ d :: joinBlocks d (b' :: bs)

/-- The output of a tab callback, or nothing when the callback is absent
(spec: a missing callback emits nothing). -/
def tabOut (t : TextTransform) (ctx : TabCtx) : String :=
  match t.tab with
  | some f => f ctx
  | none => ""

/-- Modelled from the spec: the per-tab text fragments of one window.
`winSeq` is the window's 1-based sequence (`none` for tab-only scopes, in
which case `windowTabSeq` is also missing); `gOffset` is the number of
tabs of earlier windows, so `globalSeq` is 1-based across all tabs. -/
def tabTexts (t : TextTransform) (w : List Tab) (winSeq : Option Nat)
    (gOffset : Nat) : List Frag :=
  w.enum.map fun p =>
    Frag.text (tabOut t
      { tab := p.2
        globalSeq := gOffset + p.1 + 1
        windowTabSeq := winSeq.map fun _ => p.1 + 1
        windowSeq := winSeq })

/-- Modelled from the spec: one window block — `windowStart` if present,
then the tab outputs joined by the tab delimiter, then `windowEnd` if
present. -/
def windowBlock (t : TextTransform) (seq gOffset : Nat) (w : List Tab) : List Frag :=
  (match t.windowStart with
   | some f => [Frag.text (f { window := w, seq := seq, windowTabCount := w.length })]
   | none => []) ++
  joinSep (Frag.tabDelim (t.tabDelimiter.getD "")) (tabTexts t w (some seq) gOffset) ++
  (match t.windowEnd with
   | some f => [Frag.text (f { window := w, seq := seq, windowTabCount := w.length })]
   | none => [])

/-- Modelled from the spec: the window blocks of a scope, numbering
windows from `seq` and global tab sequence from `gOffset`. -/
def windowBlocks (t : TextTransform) (wins : List (List Tab)) (seq gOffset : Nat) :
    List (List Frag) :=
  match wins with
  | [] => []
  | w :: rest => windowBlock t seq gOffset w :: windowBlocks t rest (seq + 1) (gOffset + w.length)

/-- The total number of tabs across the windows of a scope. -/
def totalTabs (wins : List (List Tab)) : Nat := (wins.map List.length).sum

/-- Modelled from the spec: the body of a rendering (everything between
`start` and `end`).  For tab-only scopes window callbacks never fire and
tabs carry no window sequence; otherwise the window blocks are joined by
the window delimiter. -/
def bodyFrags (t : TextTransform) (scope : ScopeType) (wins : List (List Tab)) :
    List Frag :=
  match scope with
  | .tab => joinSep (Frag.tabDelim (t.tabDelimiter.getD "")) (tabTexts t wins.flatten none 0)
  | _ => joinBlocks (Frag.winDelim (t.windowDelimiter.getD "")) (windowBlocks t wins 1 0)

/-- Modelled from the spec: the `start` fragment of a rendering, when the
callback is declared. -/
def startFrags (t : TextTransform) (fname : String) (scope : ScopeType)
    (wins : List (List Tab)) : List Frag :=
  match t.start with
  | some f => [Frag.text (f
      { formatName := fname
        windowCount := if scope = .tab then none else some wins.length
        tabCount := totalTabs wins
        scopeType := ctxScopeOf scope })]
  | none => []

/-- Modelled from the spec: the `end` fragment of a rendering, when the
callback is declared. -/
def endFrags (t : TextTransform) (fname : String) (scope : ScopeType)
    (wins : List (List Tab)) : List Frag :=
  match t.endCb with
  | some f => [Frag.text (f
      { formatName := fname
        windowCount := if scope = .tab then none else some wins.length
        tabCount := totalTabs wins })]
  | none => []

/-- Modelled from the spec: the full fragment sequence of one rendered
representation: `start`, then the body, then `end`. -/
def renderTextFrags (t : TextTransform) (fname : String) (scope : ScopeType)
    (wins : List (List Tab)) : List Frag :=
  startFrags t fname scope wins ++ bodyFrags t scope wins ++ endFrags t fname scope wins

/-- Concatenates fragments into the rendered string. -/
def fragsToString : List Frag → String
  | [] => ""
  | f :: fs => fragStr f ++ fragsToString fs

/-- Modelled from the spec: the rendered string of one representation. -/
def renderText (t : TextTransform) (fname : String) (scope : ScopeType)
    (wins : List (List Tab)) : String :=
  fragsToString (renderTextFrags t fname scope wins)

/-- The rendered payload of one copy action (spec §4.3 contract):
`text` always, `html` when the format declares it. -/
structure Rendered where
  text : String
  html : Option String
deriving DecidableEq

/-- Modelled from the spec: renders every representation a `Transforms`
declares. -/
def renderAll (tr : Transforms) (fname : String) (scope : ScopeType)
    (wins : List (List Tab)) : Rendered where
  text := renderText tr.text fname scope wins
  html := tr.html.map fun h => renderText h fname scope wins

/-- The number of tab-delimiter insertions in a fragment sequence. -/
def countTabDelims (fs : List Frag) : Nat := (fs.filter isTabDelimF).length

/-- The number of window-delimiter insertions in a fragment sequence. -/
def countWinDelims (fs : List Frag) : Nat := (fs.filter isWinDelimF).length

/-- The output of a `start` callback, or nothing when absent. -/
def startOut (t : TextTransform) (ctx : StartCtx) : String :=
  match t.start with
  | some f => f ctx
  | none => ""

/-- The output of the html representation's `tab` callback, or nothing
when the representation or the callback is absent. -/
def htmlTabOut (tr : Transforms) (ctx : TabCtx) : String :=
  match tr.html with
  | some h => tabOut h ctx
  | none => ""

-- ---------------------------------------------------------------------------
-- Lemmas

theorem replaceTwo_eq_flatMap (a b : Char) (ra rb : List Char)
    (hra : b ∉ ra) (hab : a ≠ b) : ∀ l : List Char,
    ((l.flatMap fun x => if x = a then ra else [x]).flatMap fun x => if x = b then rb else [x]) =
      l.flatMap fun x => if x = a then ra else if x = b then rb else [x] := by
  intro l
  induction l with
  | nil => rfl
  | cons c cs ih =>
    simp only [List.flatMap_cons, List.flatMap_append, ih]
    by_cases h1 : c = a
    · subst h1
      simp only [if_pos rfl]
      congr 1
      have : ∀ x ∈ ra, (if x = b then rb else [x]) = [x] := by
        intro x hx
        have : x ≠ b := fun h => hra (h ▸ hx)
        simp [this]
      calc ra.flatMap (fun x => if x = b then rb else [x])
          = ra.flatMap (fun x => [x]) := List.flatMap_congr (by intro x hx; exact this x hx)
        _ = ra := by simp
    · by_cases h2 : c = b
      · subst h2
        simp [h1, hab]
      · simp [h1, h2]

theorem mdEscapeLabel_eq_spec (s : String) :
    mdEscapeLabel s = ⟨s.data.flatMap mdEscapeLabelCharSpec⟩ := by
  have h := replaceTwo_eq_flatMap '[' ']' ['\\', '['] ['\\', ']'] (by decide) (by decide) s.data
  apply String.ext
  show ((s.data.flatMap _).flatMap _) = _
  rw [h]
  apply List.flatMap_congr
  intro c _
  by_cases h1 : c = '[' <;> by_cases h2 : c = ']' <;>
    simp_all [mdEscapeLabelCharSpec]

theorem mdEscapeUrl_eq_spec (s : String) :
    mdEscapeUrl s = ⟨s.data.flatMap mdEscapeUrlCharSpec⟩ := by
  have h := replaceTwo_eq_flatMap '(' ')' ['\\', '('] ['\\', ')'] (by decide) (by decide) s.data
  apply String.ext
  show ((s.data.flatMap _).flatMap _) = _
  rw [h]
  apply List.flatMap_congr
  intro c _
  by_cases h1 : c = '(' <;> by_cases h2 : c = ')' <;>
    simp_all [mdEscapeUrlCharSpec]

theorem joinSep_filter_length (p : Frag → Bool) (d : Frag) (hd : p d = true) :
    ∀ l : List Frag, (∀ x ∈ l, p x = false) →
      ((joinSep d l).filter p).length = l.length - 1 := by
  intro l
  induction l with
  | nil => intro _; rfl
  | cons x xs ih =>
    intro hl
    cases xs with
    | nil =>
      have hx : p x = false := hl x (by simp)
      simp [joinSep, List.filter, hx]
    | cons y ys =>
      have hx : p x = false := hl x (by simp)
      have htail : ∀ z ∈ y :: ys, p z = false := fun z hz => hl z (by simp [hz])
      have hrec := ih htail
      have hstep : joinSep d (x :: y :: ys) = x :: d :: joinSep d (y :: ys) := rfl
      simp [hstep, List.filter_cons, hx, hd, hrec]

theorem mem_joinSep {d x : Frag} : ∀ {l : List Frag}, x ∈ joinSep d l → x = d ∨ x ∈ l := by
  intro l
  induction l with
  | nil => intro h; simp [joinSep] at h
  | cons a as ih =>
    cases as with
    | nil => intro h; simp [joinSep] at h; simp [h]
    | cons b bs =>
      intro h
      simp only [joinSep, List.mem_cons] at h
      rcases h with h | h | h
      · right; simp [h]
      · left; exact h
      · rcases ih h with h' | h'
        · left; exact h'
        · right; simp [List.mem_cons] at h' ⊢; tauto

theorem joinBlocks_filter_length (p : Frag → Bool) (d : Frag) (hd : p d = true) :
    ∀ bs : List (List Frag), (∀ b ∈ bs, ∀ x ∈ b, p x = false) →
      ((joinBlocks d bs).filter p).length = bs.length - 1 := by
  intro bs
  induction bs with
  | nil => intro _; rfl
  | cons b rest ih =>
    intro hb
    have hbnil : ∀ x ∈ b, p x = false := hb b (by simp)
    have hfb : b.filter p = [] := by
      rw [List.filter_eq_nil_iff]
      intro a ha
      simp [hbnil a ha]
    cases rest with
    | nil => simp [joinBlocks, hfb]
    | cons b' bs' =>
      have htail : ∀ c ∈ b' :: bs', ∀ x ∈ c, p x = false := fun c hc => hb c (by simp [hc])
      have hrec := ih htail
      have hstep : joinBlocks d (b :: b' :: bs') = b ++ d :: joinBlocks d (b' :: bs') := rfl
      simp [hstep, List.filter_append, hfb, List.filter_cons, hd, hrec]

theorem joinBlocks_filter_sum (p : Frag → Bool) (d : Frag) (hd : p d = false) :
    ∀ bs : List (List Frag),
      ((joinBlocks d bs).filter p).length = (bs.map fun b => (b.filter p).length).sum := by
  intro bs
  induction bs with
  | nil => rfl
  | cons b rest ih =>
    cases rest with
    | nil => simp [joinBlocks]
    | cons b' bs' =>
      have hstep : joinBlocks d (b :: b' :: bs') = b ++ d :: joinBlocks d (b' :: bs') := rfl
      simp [hstep, List.filter_append, List.filter_cons, hd, ih]

theorem tabTexts_length (t : TextTransform) (w : List Tab) (ws : Option Nat) (g : Nat) :
    (tabTexts t w ws g).length = w.length := by
  simp [tabTexts]

theorem mem_tabTexts_text {t w ws g x} (hx : x ∈ tabTexts t w ws g) :
    ∃ s, x = Frag.text s := by
  simp only [tabTexts, List.mem_map] at hx
  obtain ⟨p, _, hp⟩ := hx
  exact ⟨_, hp.symm⟩

theorem windowBlock_countTab (t : TextTransform) (seq off : Nat) (w : List Tab) :
    countTabDelims (windowBlock t seq off w) = w.length - 1 := by
  unfold countTabDelims windowBlock
  have hmid : ((joinSep (Frag.tabDelim (t.tabDelimiter.getD ""))
      (tabTexts t w (some seq) off)).filter isTabDelimF).length = w.length - 1 := by
    rw [joinSep_filter_length isTabDelimF (Frag.tabDelim (t.tabDelimiter.getD "")) rfl
      (tabTexts t w (some seq) off) ?_, tabTexts_length]
    intro x hx
    obtain ⟨s, rfl⟩ := mem_tabTexts_text hx
    rfl
  cases hws : t.windowStart <;> cases hwe : t.windowEnd <;>
    simp_all [List.filter_append, List.filter, isTabDelimF]

theorem windowBlock_no_winDelim (t : TextTransform) (seq off : Nat) (w : List Tab) :
    ∀ x ∈ windowBlock t seq off w, isWinDelimF x = false := by
  intro x hx
  unfold windowBlock at hx
  simp only [List.mem_append] at hx
  rcases hx with (hx | hx) | hx
  · cases hws : t.windowStart <;> simp [hws] at hx <;> simp_all [isWinDelimF]
  · rcases mem_joinSep hx with rfl | hx'
    · rfl
    · obtain ⟨s, rfl⟩ := mem_tabTexts_text hx'
      rfl
  · cases hwe : t.windowEnd <;> simp [hwe] at hx <;> simp_all [isWinDelimF]

theorem windowBlocks_length (t : TextTransform) :
    ∀ (wins : List (List Tab)) (seq off : Nat),
      (windowBlocks t wins seq off).length = wins.length := by
  intro wins
  induction wins with
  | nil => intro seq off; rfl
  | cons w rest ih => intro seq off; simp [windowBlocks, ih]

theorem windowBlocks_countTab_map (t : TextTransform) :
    ∀ (wins : List (List Tab)) (seq off : Nat),
      (windowBlocks t wins seq off).map (fun b => (b.filter isTabDelimF).length) =
        wins.map fun w => w.length - 1 := by
  intro wins
  induction wins with
  | nil => intro seq off; rfl
  | cons w rest ih =>
    intro seq off
    simp only [windowBlocks, List.map_cons, ih]
    congr 1
    exact windowBlock_countTab t seq off w

theorem mem_windowBlocks {t x} : ∀ {wins : List (List Tab)} {seq off : Nat},
    x ∈ windowBlocks t wins seq off →
      ∃ s o w, w ∈ wins ∧ x = windowBlock t s o w := by
  intro wins
  induction wins with
  | nil => intro seq off h; simp [windowBlocks] at h
  | cons w rest ih =>
    intro seq off h
    simp only [windowBlocks, List.mem_cons] at h
    rcases h with rfl | h
    · exact ⟨seq, off, w, by simp, rfl⟩
    · obtain ⟨s, o, w', hw', rfl⟩ := ih h
      exact ⟨s, o, w', by simp [hw'], rfl⟩

theorem totalTabs_ge_length : ∀ (wins : List (List Tab)),
    (∀ w ∈ wins, w ≠ []) → wins.length ≤ totalTabs wins := by
  intro wins
  induction wins with
  | nil => intro _; simp [totalTabs]
  | cons w rest ih =>
    intro h
    have hw : w ≠ [] := h w (by simp)
    have hw1 : 1 ≤ w.length := List.length_pos.mpr hw
    have := ih fun w' hw' => h w' (by simp [hw'])
    simp only [totalTabs, List.map_cons, List.sum_cons, List.length_cons] at this ⊢
    omega

theorem sum_pred_eq_sub : ∀ (wins : List (List Tab)),
    (∀ w ∈ wins, w ≠ []) →
      (wins.map fun w => w.length - 1).sum = totalTabs wins - wins.length := by
  intro wins
  induction wins with
  | nil => intro _; rfl
  | cons w rest ih =>
    intro h
    have hw1 : 1 ≤ w.length := List.length_pos.mpr (h w (by simp))
    have hrest := ih fun w' hw' => h w' (by simp [hw'])
    have hge := totalTabs_ge_length rest fun w' hw' => h w' (by simp [hw'])
    simp only [totalTabs, List.map_cons, List.sum_cons, List.length_cons] at hrest hge ⊢
    omega

theorem countTabDelims_startFrags (t : TextTransform) (f : String) (s : ScopeType)
    (w : List (List Tab)) : countTabDelims (startFrags t f s w) = 0 := by
  unfold startFrags countTabDelims
  cases t.start <;> rfl

theorem countTabDelims_endFrags (t : TextTransform) (f : String) (s : ScopeType)
    (w : List (List Tab)) : countTabDelims (endFrags t f s w) = 0 := by
  unfold endFrags countTabDelims
  cases t.endCb <;> rfl

theorem countWinDelims_startFrags (t : TextTransform) (f : String) (s : ScopeType)
    (w : List (List Tab)) : countWinDelims (startFrags t f s w) = 0 := by
  unfold startFrags countWinDelims
  cases t.start <;> rfl

theorem countWinDelims_endFrags (t : TextTransform) (f : String) (s : ScopeType)
    (w : List (List Tab)) : countWinDelims (endFrags t f s w) = 0 := by
  unfold endFrags countWinDelims
  cases t.endCb <;> rfl

theorem countTabDelims_render (t : TextTransform) (fname : String) (scope : ScopeType)
    (wins : List (List Tab)) :
    countTabDelims (renderTextFrags t fname scope wins) =
      countTabDelims (bodyFrags t scope wins) := by
  unfold renderTextFrags countTabDelims
  rw [List.filter_append, List.filter_append]
  have h1 := countTabDelims_startFrags t fname scope wins
  have h2 := countTabDelims_endFrags t fname scope wins
  unfold countTabDelims at h1 h2
  simp [List.length_append, h1, h2]

theorem countWinDelims_render (t : TextTransform) (fname : String) (scope : ScopeType)
    (wins : List (List Tab)) :
    countWinDelims (renderTextFrags t fname scope wins) =
      countWinDelims (bodyFrags t scope wins) := by
  unfold renderTextFrags countWinDelims
  rw [List.filter_append, List.filter_append]
  have h1 := countWinDelims_startFrags t fname scope wins
  have h2 := countWinDelims_endFrags t fname scope wins
  unfold countWinDelims at h1 h2
  simp [List.length_append, h1, h2]

theorem joinSep_head (d : Frag) : ∀ l : List Frag, l ≠ [] →
    ∃ x tail, joinSep d l = x :: tail ∧ x ∈ l := by
  intro l
  cases l with
  | nil => intro h; exact absurd rfl h
  | cons a as =>
    intro _
    cases as with
    | nil => exact ⟨a, [], rfl, by simp⟩
    | cons b bs => exact ⟨a, d :: joinSep d (b :: bs), rfl, by simp⟩

theorem joinSep_last (d : Frag) : ∀ l : List Frag, l ≠ [] →
    ∃ ini x, joinSep d l = ini ++ [x] ∧ x ∈ l := by
  intro l
  induction l with
  | nil => intro h; exact absurd rfl h
  | cons a as ih =>
    intro _
    cases as with
    | nil => exact ⟨[], a, rfl, by simp⟩
    | cons b bs =>
      obtain ⟨ini, x, hx, hmem⟩ := ih (by simp)
      refine ⟨a :: d :: ini, x, ?_, by simp [List.mem_cons] at hmem ⊢; tauto⟩
      have hstep : joinSep d (a :: b :: bs) = a :: d :: joinSep d (b :: bs) := rfl
      simp [hstep, hx]

theorem joinBlocks_cons (d : Frag) (b : List Frag) (bs : List (List Frag)) :
    ∃ rest, joinBlocks d (b :: bs) = b ++ rest := by
  cases bs with
  | nil => exact ⟨[], by simp [joinBlocks]⟩
  | cons b' bs' => exact ⟨d :: joinBlocks d (b' :: bs'), rfl⟩

theorem joinBlocks_last (d : Frag) : ∀ bs : List (List Frag),
    (∀ b ∈ bs, ∃ ini s, b = ini ++ [Frag.text s]) → bs ≠ [] →
      ∃ ini s, joinBlocks d bs = ini ++ [Frag.text s] := by
  intro bs
  induction bs with
  | nil => intro _ h; exact absurd rfl h
  | cons b rest ih =>
    intro hb _
    cases rest with
    | nil =>
      obtain ⟨ini, s, hs⟩ := hb b (by simp)
      exact ⟨ini, s, by simp [joinBlocks, hs]⟩
    | cons b' bs' =>
      obtain ⟨ini, s, hs⟩ := ih (fun c hc => hb c (by simp [hc])) (by simp)
      refine ⟨b ++ d :: ini, s, ?_⟩
      have hstep : joinBlocks d (b :: b' :: bs') = b ++ d :: joinBlocks d (b' :: bs') := rfl
      simp [hstep, hs]

theorem tabTexts_ne_nil (t : TextTransform) (w : List Tab) (ws : Option Nat) (g : Nat)
    (hw : w ≠ []) : tabTexts t w ws g ≠ [] := by
  intro h
  have := tabTexts_length t w ws g
  rw [h] at this
  exact hw (List.eq_nil_of_length_eq_zero this.symm)

theorem windowBlock_head (t : TextTransform) (seq off : Nat) (w : List Tab)
    (hw : w ≠ []) : ∃ s rest, windowBlock t seq off w = Frag.text s :: rest := by
  unfold windowBlock
  cases hws : t.windowStart with
  | some f => exact ⟨_, _, rfl⟩
  | none =>
    obtain ⟨x, tail, hx, hmem⟩ :=
      joinSep_head (Frag.tabDelim (t.tabDelimiter.getD "")) (tabTexts t w (some seq) off)
        (tabTexts_ne_nil t w (some seq) off hw)
    obtain ⟨s, rfl⟩ := mem_tabTexts_text hmem
    refine ⟨s, tail ++ (match t.windowEnd with
      | some f => [Frag.text (f { window := w, seq := seq, windowTabCount := w.length })]
      | none => []), ?_⟩
    simp [hx]

theorem windowBlock_last (t : TextTransform) (seq off : Nat) (w : List Tab)
    (hw : w ≠ []) : ∃ ini s, windowBlock t seq off w = ini ++ [Frag.text s] := by
  unfold windowBlock
  cases hwe : t.windowEnd with
  | some f =>
    refine ⟨(match t.windowStart with
      | some g => [Frag.text (g { window := w, seq := seq, windowTabCount := w.length })]
      | none => []) ++ joinSep (Frag.tabDelim (t.tabDelimiter.getD "")) (tabTexts t w (some seq) off),
      f { window := w, seq := seq, windowTabCount := w.length }, ?_⟩
    simp
  | none =>
    obtain ⟨ini, x, hx, hmem⟩ :=
      joinSep_last (Frag.tabDelim (t.tabDelimiter.getD "")) (tabTexts t w (some seq) off)
        (tabTexts_ne_nil t w (some seq) off hw)
    obtain ⟨s, rfl⟩ := mem_tabTexts_text hmem
    refine ⟨(match t.windowStart with
      | some g => [Frag.text (g { window := w, seq := seq, windowTabCount := w.length })]
      | none => []) ++ ini, s, ?_⟩
    simp [hx]

theorem windowBlocks_ne_nil (t : TextTransform) (wins : List (List Tab)) (seq off : Nat)
    (h : wins ≠ []) : windowBlocks t wins seq off ≠ [] := by
  intro hc
  have := windowBlocks_length t wins seq off
  rw [hc] at this
  exact h (List.eq_nil_of_length_eq_zero this.symm)

theorem bodyFrags_head (t : TextTransform) (scope : ScopeType) (wins : List (List Tab))
    (hscope : scope ≠ .tab) (hne : wins ≠ []) (hw : ∀ w ∈ wins, w ≠ []) :
    ∃ s rest, bodyFrags t scope wins = Frag.text s :: rest := by
  have hbody : bodyFrags t scope wins =
      joinBlocks (Frag.winDelim (t.windowDelimiter.getD "")) (windowBlocks t wins 1 0) := by
    cases scope with
    | tab => exact absurd rfl hscope
    | window => rfl
    | windows => rfl
  rw [hbody]
  cases wins with
  | nil => exact absurd rfl hne
  | cons w rest =>
    have hblocks : windowBlocks t (w :: rest) 1 0 =
        windowBlock t 1 0 w :: windowBlocks t rest (1 + 1) (0 + w.length) := rfl
    obtain ⟨rest2, hjb⟩ := joinBlocks_cons (Frag.winDelim (t.windowDelimiter.getD ""))
      (windowBlock t 1 0 w) (windowBlocks t rest (1 + 1) (0 + w.length))
    obtain ⟨s, tail, hhead⟩ := windowBlock_head t 1 0 w (hw w (by simp))
    exact ⟨s, tail ++ rest2, by rw [hblocks, hjb, hhead]; simp⟩

theorem bodyFrags_last (t : TextTransform) (scope : ScopeType) (wins : List (List Tab))
    (hscope : scope ≠ .tab) (hne : wins ≠ []) (hw : ∀ w ∈ wins, w ≠ []) :
    ∃ ini s, bodyFrags t scope wins = ini ++ [Frag.text s] := by
  have hbody : bodyFrags t scope wins =
      joinBlocks (Frag.winDelim (t.windowDelimiter.getD "")) (windowBlocks t wins 1 0) := by
    cases scope with
    | tab => exact absurd rfl hscope
    | window => rfl
    | windows => rfl
  rw [hbody]
  apply joinBlocks_last
  · intro b hb
    obtain ⟨s, o, w', hw', rfl⟩ := mem_windowBlocks hb
    exact windowBlock_last t s o w' (hw w' hw')
  · exact windowBlocks_ne_nil t wins 1 0 hne

theorem countTabDelims_body_tab (t : TextTransform) (wins : List (List Tab)) :
    countTabDelims (bodyFrags t ScopeType.tab wins) = wins.flatten.length - 1 := by
  show ((joinSep (Frag.tabDelim (t.tabDelimiter.getD ""))
    (tabTexts t wins.flatten none 0)).filter isTabDelimF).length = _
  rw [joinSep_filter_length isTabDelimF (Frag.tabDelim (t.tabDelimiter.getD "")) rfl
    (tabTexts t wins.flatten none 0) ?_, tabTexts_length]
  intro x hx
  obtain ⟨s, rfl⟩ := mem_tabTexts_text hx
  rfl

-- ---------------------------------------------------------------------------
-- Claims

/-- C2 (amended): in each rendered representation the tab delimiter is
inserted strictly between consecutive tab outputs — never as the first or
last fragment of the body — and, provided every window in scope has at
least one tab, it appears exactly (total number of tabs) minus (number of
windows) times; for a tab-only scope (one window) it appears (tabs − 1)
times; for window-structured scopes the window delimiter appears exactly
(number of windows) − 1 times, strictly between window blocks. -/
theorem claim_C2_delimiter_counts :
    (∀ (t : TextTransform) (fname : String) (scope : ScopeType) (wins : List (List Tab)),
      scope ≠ ScopeType.tab → (∀ w ∈ wins, w ≠ []) →
        countTabDelims (renderTextFrags t fname scope wins) = totalTabs wins - wins.length) ∧
    (∀ (t : TextTransform) (fname : String) (w : List Tab),
        countTabDelims (renderTextFrags t fname ScopeType.tab [w]) = totalTabs [w] - 1) ∧
    (∀ (t : TextTransform) (fname : String) (scope : ScopeType) (wins : List (List Tab)),
      scope ≠ ScopeType.tab →
        countWinDelims (renderTextFrags t fname scope wins) = wins.length - 1) ∧
    (∀ (t : TextTransform) (scope : ScopeType) (wins : List (List Tab)) (f : Frag),
      scope ≠ ScopeType.tab → wins ≠ [] → (∀ w ∈ wins, w ≠ []) →
        ((bodyFrags t scope wins).head? = some f ∨ (bodyFrags t scope wins).getLast? = some f) →
        isDelimF f = false) := by
  refine ⟨?_, ?_, ?_, ?_⟩
  · intro t fname scope wins hs hw
    rw [countTabDelims_render]
    have hbody : bodyFrags t scope wins =
        joinBlocks (Frag.winDelim (t.windowDelimiter.getD "")) (windowBlocks t wins 1 0) := by
      cases scope with
      | tab => exact absurd rfl hs
      | window => rfl
      | windows => rfl
    rw [hbody]
    show ((joinBlocks _ _).filter isTabDelimF).length = _
    rw [joinBlocks_filter_sum isTabDelimF (Frag.winDelim (t.windowDelimiter.getD "")) rfl
      (windowBlocks t wins 1 0), windowBlocks_countTab_map, sum_pred_eq_sub wins hw]
  · intro t fname w
    rw [countTabDelims_render, countTabDelims_body_tab]
    simp [totalTabs]
  · intro t fname scope wins hs
    rw [countWinDelims_render]
    have hbody : bodyFrags t scope wins =
        joinBlocks (Frag.winDelim (t.windowDelimiter.getD "")) (windowBlocks t wins 1 0) := by
      cases scope with
      | tab => exact absurd rfl hs
      | window => rfl
      | windows => rfl
    rw [hbody]
    show ((joinBlocks _ _).filter isWinDelimF).length = _
    rw [joinBlocks_filter_length isWinDelimF (Frag.winDelim (t.windowDelimiter.getD "")) rfl
      (windowBlocks t wins 1 0) ?_, windowBlocks_length]
    intro b hb x hx
    obtain ⟨s, o, w', _, rfl⟩ := mem_windowBlocks hb
    exact windowBlock_no_winDelim t s o w' x hx
  · intro t scope wins f hs hne hw hf
    rcases hf with hf | hf
    · obtain ⟨s, rest, hb⟩ := bodyFrags_head t scope wins hs hne hw
      rw [hb] at hf
      simp only [List.head?_cons, Option.some_inj] at hf
      subst hf
      rfl
    · obtain ⟨ini, s, hb⟩ := bodyFrags_last t scope wins hs hne hw
      rw [hb, List.getLast?_concat] at hf
      simp only [Option.some_inj] at hf
      subst hf
      rfl

/-- C2 counterexample: with the `url` transform and a windows scope
containing an empty first window and a two-tab second window, exactly one
tab delimiter is inserted, while the claim's formula (total tabs) −
(number of windows) gives zero. -/
theorem claim_C2_counterexample :
    countTabDelims (renderTextFrags (urlFormat.transforms none).text "URL" ScopeType.windows
        [[], [{ url := some "http://a" }, { url := some "http://b" }]]) = 1 ∧
    totalTabs [[], [{ url := some "http://a" }, { url := some "http://b" }]] -
      ([[], [{ url := some "http://a" }, { url := some "http://b" }]] : List (List Tab)).length
        = 0 := by
  constructor
  · rfl
  · rfl

/-- C2 witness: the amended count formulas evaluated on a two-window,
one-tab-per-window `url`-format rendering, and the body's first fragment
is not a delimiter. -/
theorem claim_C2_witness :
    countTabDelims (renderTextFrags (urlFormat.transforms none).text "URL" ScopeType.windows
        [[{ url := some "http://a" }], [{ url := some "http://b" }]]) =
      totalTabs [[{ url := some "http://a" }], [{ url := some "http://b" }]] -
        ([[{ url := some "http://a" }], [{ url := some "http://b" }]] : List (List Tab)).length ∧
    countWinDelims (renderTextFrags (urlFormat.transforms none).text "URL" ScopeType.windows
        [[{ url := some "http://a" }], [{ url := some "http://b" }]]) =
      ([[{ url := some "http://a" }], [{ url := some "http://b" }]] : List (List Tab)).length - 1 ∧
    isDelimF (Frag.text "Window 1\n\n") = false :=
  ⟨claim_C2_delimiter_counts.1 (urlFormat.transforms none).text "URL" ScopeType.windows
      [[{ url := some "http://a" }], [{ url := some "http://b" }]] (by decide) (by decide),
   claim_C2_delimiter_counts.2.2.1 (urlFormat.transforms none).text "URL" ScopeType.windows
      [[{ url := some "http://a" }], [{ url := some "http://b" }]] (by decide),
   claim_C2_delimiter_counts.2.2.2 (urlFormat.transforms none).text ScopeType.windows
      [[{ url := some "http://a" }], [{ url := some "http://b" }]]
      (Frag.text "Window 1\n\n") (by decide) (by decide) (by decide)
      (Or.inl (by decide))⟩

/-- C9: rendering is deterministic — for every builtin format, every opts
value, and every fixed input, two invocations of the render pipeline
produce identical output for every representation.  In the embedding every
transform callback is a pure function of its context argument, so the two
runs are definitionally equal. -/
theorem claim_C9_deterministic :
    ∀ (i : Fin builtinFormats.length) (opts : Option OptBag) (fname : String)
      (scope : ScopeType) (wins : List (List Tab)),
      renderAll ((builtinFormats.get i).transforms opts) fname scope wins =
        renderAll ((builtinFormats.get i).transforms opts) fname scope wins :=
  fun _ _ _ _ _ => rfl

/-- C3: for every tab with a non-empty url, the titleUrl1Line text tab
output is the title (with `(untitled)` substituted for a missing/empty
title), then the configured separator (default `': '`), then the url. -/
theorem claim_C3_titleUrl1Line :
    ∀ (opts : Option OptBag) (ctx : TabCtx), truthy ctx.tab.url = true →
      tabOut (titleUrl1LineFormat.transforms opts).text ctx =
        orElseStr ctx.tab.title "(untitled)" ++
          (opts.bind (·.separator)).getD ": " ++ bangStr ctx.tab.url :=
  fun _ _ _ => rfl

/-- C3 witness: the spec's two examples with separator `' | '`. -/
theorem claim_C3_witness :
    tabOut (titleUrl1LineFormat.transforms (some { separator := some " | " })).text
        { tab := { title := some "Example", url := some "http://x" }, globalSeq := 1,
          windowTabSeq := some 1, windowSeq := some 1 } = "Example | http://x" ∧
    tabOut (titleUrl1LineFormat.transforms (some { separator := some " | " })).text
        { tab := { url := some "http://x" }, globalSeq := 1,
          windowTabSeq := some 1, windowSeq := some 1 } = "(untitled) | http://x" :=
  ⟨(claim_C3_titleUrl1Line (some { separator := some " | " })
      { tab := { title := some "Example", url := some "http://x" }, globalSeq := 1,
        windowTabSeq := some 1, windowSeq := some 1 } (by decide)).trans (by decide),
   (claim_C3_titleUrl1Line (some { separator := some " | " })
      { tab := { url := some "http://x" }, globalSeq := 1,
        windowTabSeq := some 1, windowSeq := some 1 } (by decide)).trans (by decide)⟩

/-- C7: for every tab with a non-empty url and every options overlay, the
titleUrl2Line text tab output is the title (or `(untitled)`) and the url
joined by exactly a newline, whatever separator option is supplied. -/
theorem claim_C7_titleUrl2Line :
    ∀ (opts : Option OptBag) (ctx : TabCtx), truthy ctx.tab.url = true →
      tabOut (titleUrl2LineFormat.transforms opts).text ctx =
        orElseStr ctx.tab.title "(untitled)" ++ "\n" ++ bangStr ctx.tab.url :=
  fun _ _ _ => rfl

/-- C7 witness: a supplied separator option `' | '` is ignored and the
newline is used. -/
theorem claim_C7_witness :
    tabOut (titleUrl2LineFormat.transforms (some { separator := some " | " })).text
        { tab := { title := some "Example", url := some "http://x" }, globalSeq := 1,
          windowTabSeq := some 1, windowSeq := some 1 } = "Example\nhttp://x" :=
  (claim_C7_titleUrl2Line (some { separator := some " | " })
      { tab := { title := some "Example", url := some "http://x" }, globalSeq := 1,
        windowTabSeq := some 1, windowSeq := some 1 } (by decide)).trans (by decide)

/-- C4: for every tab with a (non-empty) url, the markdown text tab output
is `[T](U)` where `T` is the title (or the url when the title is
missing/empty) with exactly `[` and `]` escaped character-wise, and `U` is
the url with exactly `(` and `)` escaped character-wise; no other
characters are escaped. -/
theorem claim_C4_markdown :
    ∀ (opts : Option OptBag) (ctx : TabCtx), truthy ctx.tab.url = true →
      tabOut (markdownFormat.transforms opts).text ctx =
        "[" ++ (⟨(orElseStr ctx.tab.title (bangStr ctx.tab.url)).data.flatMap
            mdEscapeLabelCharSpec⟩ : String) ++
          "](" ++ (⟨(bangStr ctx.tab.url).data.flatMap mdEscapeUrlCharSpec⟩ : String) ++ ")" := by
  intro opts ctx _
  show "[" ++ mdEscapeLabel (orElseStr ctx.tab.title (bangStr ctx.tab.url)) ++
      "](" ++ mdEscapeUrl (bangStr ctx.tab.url) ++ ")" = _
  rw [mdEscapeLabel_eq_spec, mdEscapeUrl_eq_spec]

/-- C4 witness: a title containing `[` and `]` and a url containing `(`
and `)` render with exactly those characters escaped. -/
theorem claim_C4_witness :
    tabOut (markdownFormat.transforms none).text
        { tab := { title := some "a[b]c", url := some "http://x/(1)" }, globalSeq := 1,
          windowTabSeq := some 1, windowSeq := some 1 } = "[a\\[b\\]c](http://x/\\(1\\))" :=
  (claim_C4_markdown none
      { tab := { title := some "a[b]c", url := some "http://x/(1)" }, globalSeq := 1,
        windowTabSeq := some 1, windowSeq := some 1 } (by decide)).trans (by decide)

/-- C1: `getFormat` fails (yields `none`, the embedding of the failed
lookup) exactly when the id is neither a builtin id nor matches the
`custom-` pattern; a custom-pattern id yields the custom-format template,
and each builtin id yields its own registry entry. -/
theorem claim_C1_getFormat :
    ∀ id : String,
      (getFormat id = none ↔ (isCustomFormatId id = false ∧ id ∉ builtinFormatIds)) ∧
      (isCustomFormatId id = true → getFormat id = some (Sum.inr customFormat)) ∧
      (∀ f ∈ builtinFormats, f.id = id → getFormat id = some (Sum.inl f)) := by
  intro id
  refine ⟨?_, ?_, ?_⟩
  · unfold getFormat
    cases h : isCustomFormatId id with
    | true => simp [h]
    | false =>
      simp only [h, Bool.false_eq_true, if_false]
      rw [Option.map_eq_none', List.find?_eq_none]
      constructor
      · intro hfind
        refine ⟨trivial, ?_⟩
        intro hmem
        rw [builtinFormatIds, List.mem_map] at hmem
        obtain ⟨f, hf, hfid⟩ := hmem
        exact hfind f hf (by simp [hfid])
      · rintro ⟨-, hnmem⟩ f hf
        simp only [beq_iff_eq]
        intro hfid
        exact hnmem (by rw [builtinFormatIds]; exact List.mem_map.mpr ⟨f, hf, hfid⟩)
  · intro h
    unfold getFormat
    simp [h]
  · intro f hf hfid
    simp only [builtinFormats, List.mem_cons, List.not_mem_nil, or_false] at hf
    rcases hf with rfl | rfl | rfl | rfl | rfl | rfl | rfl | rfl | rfl | rfl | rfl <;>
      (subst hfid; rfl)

/-- C1 witness: a custom-pattern id returns the custom template, a
builtin id returns its entry, and an unknown id fails. -/
theorem claim_C1_witness :
    getFormat "custom-x" = some (Sum.inr customFormat) ∧
    getFormat "link" = some (Sum.inl linkFormat) ∧
    getFormat "nope" = none :=
  ⟨(claim_C1_getFormat "custom-x").2.1 (by decide),
   (claim_C1_getFormat "link").2.2 linkFormat (List.mem_cons_self _ _) rfl,
   ((claim_C1_getFormat "nope").1).mpr ⟨by decide, by decide⟩⟩

/-- C8: `isCustomFormatId` holds exactly for ids starting with `custom-`;
`isBuiltinFormatWithOptsId` holds exactly for membership in the static
list of builtin ids declaring `opts` (which is `titleUrl1Line`, `json`,
`htmlTable`); `isFormatWithOptsId` is their disjunction.  All three are
pure functions of the id string. -/
theorem claim_C8_predicates :
    ∀ id : String,
      (isCustomFormatId id = true ↔ ∃ s, id = "custom-" ++ s) ∧
      (isBuiltinFormatWithOptsId id = true ↔ id ∈ builtinFormatWithOptsIds) ∧
      builtinFormatWithOptsIds = ["titleUrl1Line", "json", "htmlTable"] ∧
      isFormatWithOptsId id = (isBuiltinFormatWithOptsId id || isCustomFormatId id) := by
  intro id
  refine ⟨?_, ?_, rfl, rfl⟩
  · unfold isCustomFormatId
    rw [List.isPrefixOf_iff_prefix]
    constructor
    · rintro ⟨t, ht⟩
      exact ⟨⟨t⟩, String.ext ht.symm⟩
    · rintro ⟨s, rfl⟩
      exact ⟨s.data, rfl⟩
  · unfold isBuiltinFormatWithOptsId
    exact List.elem_iff

theorem fragsToString_append (a b : List Frag) :
    fragsToString (a ++ b) = fragsToString a ++ fragsToString b := by
  induction a with
  | nil => rfl
  | cons x xs ih =>
    show fragStr x ++ fragsToString (xs ++ b) = fragStr x ++ fragsToString xs ++ fragsToString b
    rw [ih, String.append_assoc]

theorem renderText_start_cons (t : TextTransform) (fname : String) (scope : ScopeType)
    (wins : List (List Tab)) (f : StartCtx → String) (hf : t.start = some f) :
    renderText t fname scope wins =
      f { formatName := fname
          windowCount := if scope = ScopeType.tab then none else some wins.length
          tabCount := totalTabs wins
          scopeType := ctxScopeOf scope } ++
        fragsToString (bodyFrags t scope wins ++ endFrags t fname scope wins) := by
  unfold renderText renderTextFrags startFrags
  rw [hf, List.append_assoc]
  rfl

/-- C5: the csv `start` callback yields the empty string exactly when the
scope has zero tabs, and otherwise exactly `Window,Title,URL\n` for a
window-structured scope and `Title,URL\n` for a tab scope; consequently
every non-empty csv rendering begins with exactly that header row. -/
theorem claim_C5_csv_header :
    (∀ (opts : Option OptBag) (ctx : StartCtx), ctx.tabCount = 0 →
        startOut (csvFormat.transforms opts).text ctx = "") ∧
    (∀ (opts : Option OptBag) (ctx : StartCtx), ctx.tabCount ≠ 0 →
        startOut (csvFormat.transforms opts).text ctx =
          if ctx.scopeType = CtxScopeType.window then "Window,Title,URL\n" else "Title,URL\n") ∧
    (∀ (opts : Option OptBag) (fname : String) (scope : ScopeType) (wins : List (List Tab)),
      totalTabs wins ≠ 0 →
        ∃ rest, renderText (csvFormat.transforms opts).text fname scope wins =
          (if scope = ScopeType.tab then "Title,URL\n" else "Window,Title,URL\n") ++ rest) := by
  refine ⟨?_, ?_, ?_⟩
  · intro opts ctx h
    simp [startOut, csvFormat, h]
  · intro opts ctx h
    have hb : (ctx.tabCount != 0) = true := by simpa using h
    cases hsc : ctx.scopeType with
    | window => simp [startOut, csvFormat, hb, hsc, h]
    | tab => simp [startOut, csvFormat, hb, hsc, h]
  · intro opts fname scope wins h
    have hb : (totalTabs wins != 0) = true := by simpa using h
    refine ⟨fragsToString (bodyFrags (csvFormat.transforms opts).text scope wins ++
      endFrags (csvFormat.transforms opts).text fname scope wins), ?_⟩
    rw [renderText_start_cons (csvFormat.transforms opts).text fname scope wins _ rfl]
    congr 1
    show (if (totalTabs wins != 0) = true then
        (if ctxScopeOf scope = CtxScopeType.window then "Window," else "") ++ "Title,URL\n"
      else "") = _
    rw [if_pos hb]
    cases scope with
    | tab => rfl
    | window => rfl
    | windows => rfl

/-- C5 witness: the header clauses at concrete inputs — zero tabs gives no
header, a non-empty window scope gives the window header, and a non-empty
tab-scope rendering starts with `Title,URL\n`. -/
theorem claim_C5_witness :
    startOut (csvFormat.transforms none).text
        { formatName := "CSV", windowCount := some 1, tabCount := 0,
          scopeType := CtxScopeType.window } = "" ∧
    startOut (csvFormat.transforms none).text
        { formatName := "CSV", windowCount := some 1, tabCount := 2,
          scopeType := CtxScopeType.window } = "Window,Title,URL\n" ∧
    ∃ rest, renderText (csvFormat.transforms none).text "CSV" ScopeType.tab
        [[{ title := some "T", url := some "http://a" }]] = "Title,URL\n" ++ rest :=
  ⟨claim_C5_csv_header.1 none
      { formatName := "CSV", windowCount := some 1, tabCount := 0,
        scopeType := CtxScopeType.window } rfl,
   (claim_C5_csv_header.2.1 none
      { formatName := "CSV", windowCount := some 1, tabCount := 2,
        scopeType := CtxScopeType.window } (by decide)).trans (by decide),
   claim_C5_csv_header.2.2 none "CSV" ScopeType.tab
      [[{ title := some "T", url := some "http://a" }]] (by decide)⟩

/-- The tab property named by a json `properties` entry. -/
def tabField (tab : Tab) : String → Option String
  | "title" => tab.title
  | "url" => tab.url
  | "favIconUrl" => tab.favIconUrl
  | _ => none

/-- C6 (amended): the json text tab output emits a property exactly when
it is present and non-empty on the tab and either the `properties` option
is absent or empty (in which case every present property is emitted,
favIconUrl included) or the option contains the property name; with the
registry's declared default opts (`properties = [title, url]`) favIconUrl
is never emitted. -/
theorem claim_C6_json_properties :
    (∀ (opts : Option OptBag) (tab : Tab) (p : String),
      p ∈ (jsonTabProps opts tab).map Prod.fst ↔
        ((p = "title" ∨ p = "url" ∨ p = "favIconUrl") ∧ truthy (tabField tab p) = true ∧
          (jsonNoProperties opts = true ∨
            ((opts.bind (·.properties)).getD []).contains p = true))) ∧
    (∀ tab : Tab, ((jsonTabProps jsonFormat.opts tab).map Prod.fst).contains "favIconUrl"
        = false) := by
  constructor
  · intro opts tab p
    have hone : ∀ (c : Bool) (k v : String),
        (p ∈ (if c then [(k, v)] else []).map Prod.fst) ↔ (c = true ∧ p = k) := by
      intro c k v
      cases c <;> simp
    unfold jsonTabProps
    simp only [List.map_append, List.mem_append, hone]
    by_cases h1 : p = "title"
    · subst h1
      simp [tabField, Bool.and_eq_true, Bool.or_eq_true]
    · by_cases h2 : p = "url"
      · subst h2
        simp [tabField, Bool.and_eq_true, Bool.or_eq_true]
      · by_cases h3 : p = "favIconUrl"
        · subst h3
          simp [tabField, Bool.and_eq_true, Bool.or_eq_true]
        · simp [h1, h2, h3]
  · intro tab
    cases ht : truthy tab.title <;> cases hu : truthy tab.url <;>
      simp [jsonTabProps, jsonFormat, jsonNoProperties, ht, hu]

/-- C6 counterexample: with the `properties` option absent, the code
emits `favIconUrl` for a tab carrying one, although `favIconUrl` is not in
the claim's default selection of title and url. -/
theorem claim_C6_counterexample :
    "favIconUrl" ∈ (jsonTabProps none { favIconUrl := some "http://x/f.ico" }).map Prod.fst ∧
    "favIconUrl" ∉ (["title", "url"] : List String) := by
  constructor
  · decide
  · decide

/-- C10: `getAnchorTagHtml` is total — the empty string exactly when the
tab has no (truthy) url, otherwise an anchor tag whose href is the url and
whose visible text is the HTML-encoded title (or url when the title is
missing/empty) — and the `link` and `htmlTable` html tab outputs (and the
`htmlTable` text tab output) are exactly this anchor tag. -/
theorem claim_C10_anchor :
    (∀ tab : Tab, truthy tab.url = false → getAnchorTagHtml tab = "") ∧
    (∀ tab : Tab, truthy tab.url = true →
      getAnchorTagHtml tab = "<a href=\"" ++ bangStr tab.url ++ "\">" ++
        encodeHtml (orElseStr tab.title (bangStr tab.url)) ++ "</a>") ∧
    (∀ (opts : Option OptBag) (ctx : TabCtx),
      htmlTabOut (linkFormat.transforms opts) ctx = getAnchorTagHtml ctx.tab ∧
      htmlTabOut (htmlTableFormat.transforms opts) ctx = getAnchorTagHtml ctx.tab ∧
      tabOut (htmlTableFormat.transforms opts).text ctx = getAnchorTagHtml ctx.tab) := by
  refine ⟨?_, ?_, ?_⟩
  · intro tab h
    simp [getAnchorTagHtml, h]
  · intro tab h
    simp [getAnchorTagHtml, h]
  · intro opts ctx
    exact ⟨rfl, rfl, rfl⟩

/-- C10 witness: a url-less tab yields the empty string; a titled tab with
a `<` in the title yields an anchor with the title HTML-encoded. -/
theorem claim_C10_witness :
    getAnchorTagHtml { url := none } = "" ∧
    getAnchorTagHtml { title := some "a<b", url := some "http://x" } =
      "<a href=\"http://x\">a&lt;b</a>" :=
  ⟨claim_C10_anchor.1 { url := none } (by decide),
   (claim_C10_anchor.2.1 { title := some "a<b", url := some "http://x" }
      (by decide)).trans (by decide)⟩

end TC
